import Mathlib

/-!
# Micropay gateway: circuit breaker, service registry, proxy dispatcher

A shallow embedding of the Micropay repository's infrastructure middleware:
the `CircuitBreaker` class (src/middleware/circuitBreaker.js), the
`ServiceRegistry` class (src/middleware/serviceDiscovery.js), and the
`proxyRequest` dispatcher of the API gateway (src/services/gateway server).
Times are modelled as natural-number millisecond timestamps, the wrapped
asynchronous operation of a breaker call as its outcome (`Except`), and the
single random draw of `getHealthyInstance` as an arbitrary natural number
reduced modulo the instance-list length.
-/

namespace Micropay

/-! ## Circuit breaker (src/middleware/circuitBreaker.js) -/

/-- The three breaker states: `this.state` ranges over the strings
`'CLOSED'`, `'OPEN'`, `'HALF_OPEN'`. -/
inductive BreakerState where
  | CLOSED
  | OPEN
  | HALF_OPEN
deriving DecidableEq, Repr

/-- The fields of a `CircuitBreaker` object. -/
structure CircuitBreaker where
  threshold : Nat
  timeout : Nat
  resetTimeout : Nat
  failures : Nat
  nextAttempt : Nat
  state : BreakerState
deriving DecidableEq, Repr

namespace CircuitBreaker

/-- The constructor: `threshold`, `timeout`, `resetTimeout` as given,
`failures = 0`, `nextAttempt = Date.now()`, `state = 'CLOSED'`. -/
def new (threshold timeout resetTimeout now : Nat) : CircuitBreaker :=
  { threshold := threshold
    timeout := timeout
    resetTimeout := resetTimeout
    failures := 0
    nextAttempt := now
    state := .CLOSED }

/-- `recordFailure()`: increment `failures`; when the count reaches the
threshold, open the breaker and schedule the next attempt. -/
def recordFailure (cb : CircuitBreaker) (now : Nat) : CircuitBreaker :=
  let f := cb.failures + 1
  if cb.threshold ≤ f then
    { cb with failures := f, state := .OPEN, nextAttempt := now + cb.resetTimeout }
  else
    { cb with failures := f }

/-- `reset()`: clear the failure count and close the breaker. -/
def reset (cb : CircuitBreaker) : CircuitBreaker :=
  { cb with failures := 0, state := .CLOSED }

/-- `getState()` returns the state as the string stored in `this.state`. -/
def getState (cb : CircuitBreaker) : String :=
  match cb.state with
  | .CLOSED => "CLOSED"
  | .OPEN => "OPEN"
  | .HALF_OPEN => "HALF_OPEN"

/-- What one invocation of `call` produces towards the caller: the awaited
result, the re-raised operation error, or the `'Circuit breaker is OPEN'`
rejection. -/
inductive CallResult (α ε : Type) where
  | ok (a : α)
  | err (e : ε)
  | breakerOpen
deriving DecidableEq, Repr

/-- The full observable outcome of one `call`: what is returned or thrown,
the breaker object afterwards, and how many times the wrapped operation was
invoked. -/
structure CallOutcome (α ε : Type) where
  result : CallResult α ε
  breaker : CircuitBreaker
  invocations : Nat
deriving DecidableEq, Repr

/-- The `try { await func(...) } catch` body of `call`: the operation is
invoked once; success runs `reset`, failure runs `recordFailure` and
re-raises the error. -/
def tryBody (cb : CircuitBreaker) (now : Nat) (op : Except ε α) :
    CallOutcome α ε :=
  match op with
  | .ok a => { result := .ok a, breaker := cb.reset, invocations := 1 }
  | .error e => { result := .err e, breaker := cb.recordFailure now, invocations := 1 }

/-- `call(func, ...)`: when OPEN and before `nextAttempt`, throw
`'Circuit breaker is OPEN'` without invoking the operation; when OPEN and
due, move to HALF_OPEN first; then run the guarded body. -/
def call (cb : CircuitBreaker) (now : Nat) (op : Except ε α) :
    CallOutcome α ε :=
  if cb.state = .OPEN then
    if now < cb.nextAttempt then
      { result := .breakerOpen, breaker := cb, invocations := 0 }
    else
      tryBody { cb with state := .HALF_OPEN } now op
  else
    tryBody cb now op

/-- A sequence of `k` consecutive failing calls, the `i`-th one performed at
time `times i`. -/
def failSeq (cb : CircuitBreaker) (times : Nat → Nat) : Nat → CircuitBreaker
  | 0 => cb
  | k + 1 =>
      (call (failSeq cb times k) (times k) (Except.error () : Except Unit Unit)).breaker

end CircuitBreaker

end Micropay

namespace Micropay

open CircuitBreaker

/-- Shape of the breaker after `k < T` consecutive failures from a fresh
breaker: still CLOSED, `failures = k`, `nextAttempt` untouched. -/
theorem failSeq_lt (T timeout resetTimeout now0 : Nat) (times : Nat → Nat)
    (k : Nat) (hk : k < T) :
    failSeq (new T timeout resetTimeout now0) times k =
      { threshold := T, timeout := timeout, resetTimeout := resetTimeout,
        failures := k, nextAttempt := now0, state := .CLOSED } := by
  induction k with
  | zero => simp [failSeq, new]
  | succ n ih =>
    have hn : n < T := Nat.lt_of_succ_lt hk
    have hlt : ¬ T ≤ n + 1 := by omega
    simp only [failSeq, ih hn, call, tryBody, recordFailure]
    simp [hlt]

/-- **C1.** For every threshold `T ≥ 1`, a fresh breaker undergoing
consecutive failing calls stays CLOSED with `failures = k` after `k < T`
failures, and the `T`-th failure sets the state to OPEN with
`nextAttempt = now + resetTimeout`, `now` being the time of that call. -/
theorem breaker_opens_exactly_at_threshold
    (T timeout resetTimeout now0 : Nat) (times : Nat → Nat) (hT : 1 ≤ T) :
    (∀ k < T,
      (failSeq (new T timeout resetTimeout now0) times k).state = .CLOSED ∧
      (failSeq (new T timeout resetTimeout now0) times k).failures = k) ∧
    (failSeq (new T timeout resetTimeout now0) times T).state = .OPEN ∧
    (failSeq (new T timeout resetTimeout now0) times T).failures = T ∧
    (failSeq (new T timeout resetTimeout now0) times T).nextAttempt =
      times (T - 1) + resetTimeout := by
  refine ⟨fun k hk => ?_, ?_⟩
  · rw [failSeq_lt T timeout resetTimeout now0 times k hk]
    exact ⟨rfl, rfl⟩
  · obtain ⟨S, hS⟩ : ∃ S, T = S + 1 := ⟨T - 1, by omega⟩
    subst hS
    have hprev := failSeq_lt (S + 1) timeout resetTimeout now0 times S (by omega)
    simp only [failSeq, hprev, call, tryBody, recordFailure]
    simp

/-- Witness for C1 at `T = 2`. -/
theorem breaker_opens_exactly_at_threshold_witness :
    (1 ≤ 2) ∧
    ((∀ k < 2,
        (failSeq (new 2 1000 100 5) (fun i => 10 * i) k).state = .CLOSED ∧
        (failSeq (new 2 1000 100 5) (fun i => 10 * i) k).failures = k) ∧
      (failSeq (new 2 1000 100 5) (fun i => 10 * i) 2).state = .OPEN ∧
      (failSeq (new 2 1000 100 5) (fun i => 10 * i) 2).failures = 2 ∧
      (failSeq (new 2 1000 100 5) (fun i => 10 * i) 2).nextAttempt =
        (10 * (2 - 1)) + 100) :=
  ⟨by decide,
    breaker_opens_exactly_at_threshold 2 1000 100 5 (fun i => 10 * i) (by decide)⟩

end Micropay

namespace Micropay

open CircuitBreaker

/-- **C2.** For a breaker that is OPEN at the start of `call`: before
`nextAttempt` the call throws `'Circuit breaker is OPEN'`, invokes the
operation zero times and leaves the breaker unchanged; at or after
`nextAttempt` the call first flips the state to HALF_OPEN and then runs the
guarded body, invoking the operation exactly once. -/
theorem open_breaker_call {α ε : Type} (cb : CircuitBreaker) (now : Nat)
    (op : Except ε α) (hopen : cb.state = .OPEN) :
    (now < cb.nextAttempt →
      call cb now op =
        { result := .breakerOpen, breaker := cb, invocations := 0 }) ∧
    (cb.nextAttempt ≤ now →
      call cb now op = tryBody { cb with state := .HALF_OPEN } now op ∧
      (call cb now op).invocations = 1) := by
  constructor
  · intro h
    simp [call, hopen, h]
  · intro h
    have hnot : ¬ now < cb.nextAttempt := by omega
    refine ⟨by simp [call, hopen, hnot], ?_⟩
    cases op <;> simp [call, hopen, hnot, tryBody]

/-- A concrete OPEN breaker used to witness C2. -/
def cbOpenW : CircuitBreaker :=
  { threshold := 1, timeout := 1000, resetTimeout := 100, failures := 1,
    nextAttempt := 100, state := .OPEN }

/-- A concrete HALF_OPEN breaker used to witness C3. -/
def cbHalfW : CircuitBreaker :=
  { threshold := 1, timeout := 1000, resetTimeout := 100, failures := 1,
    nextAttempt := 100, state := .HALF_OPEN }

/-- Witness for C2 on a concrete OPEN breaker, called at time 50. -/
theorem open_breaker_call_witness :
    cbOpenW.state = .OPEN ∧
    ((50 < cbOpenW.nextAttempt →
      call cbOpenW 50 (Except.ok 7 : Except Unit Nat) =
        { result := .breakerOpen, breaker := cbOpenW, invocations := 0 }) ∧
     (cbOpenW.nextAttempt ≤ 50 →
      call cbOpenW 50 (Except.ok 7 : Except Unit Nat) =
        tryBody { cbOpenW with state := .HALF_OPEN } 50 (Except.ok 7) ∧
      (call cbOpenW 50 (Except.ok 7 : Except Unit Nat)).invocations = 1)) :=
  ⟨rfl, open_breaker_call cbOpenW 50 (Except.ok 7) rfl⟩

/-- **C3.** A call on a HALF_OPEN breaker (which, on every execution path
that produces one, satisfies `threshold ≤ failures`): success returns the
operation's result and leaves the breaker CLOSED with `failures = 0`;
failure re-raises the error, increments `failures`, and leaves the breaker
OPEN with `nextAttempt = now + resetTimeout`. -/
theorem half_open_probe {α ε : Type} (cb : CircuitBreaker) (now : Nat)
    (hhalf : cb.state = .HALF_OPEN) (hinv : cb.threshold ≤ cb.failures) :
    (∀ a : α,
      (call cb now (Except.ok a : Except ε α)).result = .ok a ∧
      (call cb now (Except.ok a : Except ε α)).breaker.state = .CLOSED ∧
      (call cb now (Except.ok a : Except ε α)).breaker.failures = 0) ∧
    (∀ e : ε,
      (call cb now (Except.error e : Except ε α)).result = .err e ∧
      (call cb now (Except.error e : Except ε α)).breaker.failures =
        cb.failures + 1 ∧
      (call cb now (Except.error e : Except ε α)).breaker.state = .OPEN ∧
      (call cb now (Except.error e : Except ε α)).breaker.nextAttempt =
        now + cb.resetTimeout) := by
  have hne : ¬ cb.state = .OPEN := by simp [hhalf]
  constructor
  · intro a
    simp [call, hne, tryBody, reset]
  · intro e
    have hsucc : cb.threshold ≤ cb.failures + 1 := Nat.le_succ_of_le hinv
    simp [call, hne, tryBody, recordFailure, hsucc]

/-- Witness for C3 on a concrete HALF_OPEN breaker with `threshold = 1`,
`failures = 1`, probed at time 200. -/
theorem half_open_probe_witness :
    cbHalfW.state = .HALF_OPEN ∧
    cbHalfW.threshold ≤ cbHalfW.failures ∧
    ((∀ a : Nat,
      (call cbHalfW 200 (Except.ok a : Except Unit Nat)).result = .ok a ∧
      (call cbHalfW 200 (Except.ok a : Except Unit Nat)).breaker.state = .CLOSED ∧
      (call cbHalfW 200 (Except.ok a : Except Unit Nat)).breaker.failures = 0) ∧
     (∀ e : Unit,
      (call cbHalfW 200 (Except.error e : Except Unit Nat)).result = .err e ∧
      (call cbHalfW 200 (Except.error e : Except Unit Nat)).breaker.failures =
        cbHalfW.failures + 1 ∧
      (call cbHalfW 200 (Except.error e : Except Unit Nat)).breaker.state = .OPEN ∧
      (call cbHalfW 200 (Except.error e : Except Unit Nat)).breaker.nextAttempt =
        200 + cbHalfW.resetTimeout)) :=
  ⟨rfl, Nat.le_refl 1, half_open_probe cbHalfW 200 rfl (Nat.le_refl 1)⟩

end Micropay

namespace Micropay

open CircuitBreaker

/-- The breaker safety invariant: whenever the state is OPEN or HALF_OPEN,
the failure count has reached the threshold. -/
def BreakerInv (cb : CircuitBreaker) : Prop :=
  (cb.state = .OPEN ∨ cb.state = .HALF_OPEN) → cb.threshold ≤ cb.failures

/-- Breakers reachable by a sequence of completed `call` invocations from a
freshly constructed breaker. -/
inductive Reachable : CircuitBreaker → Prop where
  | init (threshold timeout resetTimeout now : Nat) :
      Reachable (new threshold timeout resetTimeout now)
  | step {α ε : Type} (cb : CircuitBreaker) (now : Nat) (op : Except ε α) :
      Reachable cb → Reachable ((call cb now op).breaker)

/-- One `call` preserves the invariant and never leaves the breaker in
HALF_OPEN. -/
theorem call_preserves_inv {α ε : Type} (cb : CircuitBreaker) (now : Nat)
    (op : Except ε α) (hinv : BreakerInv cb) :
    BreakerInv (call cb now op).breaker ∧
    ((call cb now op).breaker.state = .CLOSED ∨
      (call cb now op).breaker.state = .OPEN) := by
  by_cases h1 : cb.state = .OPEN
  · by_cases h2 : now < cb.nextAttempt
    · have hcall : call cb now op =
          { result := .breakerOpen, breaker := cb, invocations := 0 } := by
        simp [call, h1, h2]
      rw [hcall]
      exact ⟨hinv, Or.inr h1⟩
    · have hf : cb.threshold ≤ cb.failures := hinv (Or.inl h1)
      cases op with
      | ok a => simp [call, h1, h2, tryBody, reset, BreakerInv]
      | error e =>
        have hs : cb.threshold ≤ cb.failures + 1 := Nat.le_succ_of_le hf
        simp [call, h1, h2, tryBody, recordFailure, hs, BreakerInv]
  · cases op with
    | ok a => simp [call, h1, tryBody, reset, BreakerInv]
    | error e =>
      by_cases h3 : cb.threshold ≤ cb.failures + 1
      · simp [call, h1, tryBody, recordFailure, h3, BreakerInv]
      · rcases hst : cb.state with _ | _ | _
        · simp [call, h1, tryBody, recordFailure, h3, BreakerInv, hst]
        · exact absurd hst h1
        · exact absurd (Nat.le_succ_of_le (hinv (Or.inr hst))) h3

/-- Every reachable breaker satisfies the invariant and is not HALF_OPEN. -/
theorem reachable_inv (cb : CircuitBreaker) (h : Reachable cb) :
    BreakerInv cb ∧ cb.state ≠ .HALF_OPEN := by
  induction h with
  | init threshold timeout resetTimeout now =>
    refine ⟨fun h => ?_, by simp [new]⟩
    rcases h with h | h <;> simp [new] at h
  | step cb now op hr ih =>
    obtain ⟨hinv, -⟩ := ih
    obtain ⟨hinv2, hst⟩ := call_preserves_inv cb now op hinv
    refine ⟨hinv2, ?_⟩
    rcases hst with h | h <;> simp [h]

/-- **C10.** HALF_OPEN is never a resting state: every reachable breaker
satisfies `state ∈ {OPEN, HALF_OPEN} → threshold ≤ failures`, its
`getState()` is never the string `'HALF_OPEN'`, and the breaker left behind
by any completed `call` is CLOSED or OPEN. -/
theorem half_open_is_transient (cb : CircuitBreaker) (h : Reachable cb) :
    ((cb.state = .OPEN ∨ cb.state = .HALF_OPEN) →
      cb.threshold ≤ cb.failures) ∧
    cb.getState ≠ "HALF_OPEN" ∧
    (∀ (α ε : Type) (now : Nat) (op : Except ε α),
      (call cb now op).breaker.state = .CLOSED ∨
      (call cb now op).breaker.state = .OPEN) := by
  obtain ⟨hinv, hst⟩ := reachable_inv cb h
  refine ⟨hinv, ?_, fun α ε now op => (call_preserves_inv cb now op hinv).2⟩
  rcases hcase : cb.state with _ | _ | _
  · simp [getState, hcase]
  · simp [getState, hcase]
  · exact absurd hcase hst

/-- Witness for C10 at a freshly constructed breaker. -/
theorem half_open_is_transient_witness :
    Reachable (new 5 60000 30000 0) ∧
    ((((new 5 60000 30000 0).state = .OPEN ∨
        (new 5 60000 30000 0).state = .HALF_OPEN) →
      (new 5 60000 30000 0).threshold ≤ (new 5 60000 30000 0).failures) ∧
    (new 5 60000 30000 0).getState ≠ "HALF_OPEN" ∧
    (∀ (α ε : Type) (now : Nat) (op : Except ε α),
      (call (new 5 60000 30000 0) now op).breaker.state = .CLOSED ∨
      (call (new 5 60000 30000 0) now op).breaker.state = .OPEN)) :=
  ⟨Reachable.init 5 60000 30000 0,
    half_open_is_transient (new 5 60000 30000 0) (Reachable.init 5 60000 30000 0)⟩

end Micropay

namespace Micropay

/-! ## Service registry (src/middleware/serviceDiscovery.js) -/

/-- A stored service instance: the spread `{...instance}` fields plus the
`status` and `registeredAt` fields that `register` adds. -/
structure ServiceInstance where
  id : String
  url : String
  version : String
  status : String
  registeredAt : Nat
deriving DecidableEq, Repr

/-- The registry's `services` map, as an association list in insertion
order. -/
abbrev Registry := List (String × List ServiceInstance)

/-- `Map.get`: the value bound to the first matching key, if any. -/
def mapGet : Registry → String → Option (List ServiceInstance)
  | [], _ => none
  | (k, v) :: rest, name => if k = name then some v else mapGet rest name

/-- `Map.set`: replace the value at an existing key, else append a new
binding. -/
def mapSet : Registry → String → List ServiceInstance → Registry
  | [], name, v => [(name, v)]
  | (k, w) :: rest, name, v =>
      if k = name then (name, v) :: rest else (k, w) :: mapSet rest name v

/-- `this.services.get(serviceName) || []`. -/
def stored (sr : Registry) (name : String) : List ServiceInstance :=
  (mapGet sr name).getD []

/-- `register(serviceName, instance)`: append
`{...instance, registeredAt: now, status: 'healthy'}` to the service's list,
creating the list when the key is absent. -/
def register (sr : Registry) (name : String) (inst : ServiceInstance)
    (now : Nat) : Registry :=
  mapSet sr name
    (stored sr name ++ [{ inst with status := "healthy", registeredAt := now }])

/-- `discover(serviceName)`: the stored list filtered to
`status === 'healthy'`. -/
def discover (sr : Registry) (name : String) : List ServiceInstance :=
  (stored sr name).filter (fun i => i.status == "healthy")

/-- `getHealthyInstance(serviceName)`: throw when `discover` is empty, else
return the instance at index `Math.floor(Math.random() * length)`; the
random draw is modelled by an arbitrary `k` reduced modulo the length. -/
def getHealthyInstance (sr : Registry) (name : String) (k : Nat) :
    Except String ServiceInstance :=
  let instances := discover sr name
  if h : instances.length = 0 then
    .error ("No healthy instances found for service: " ++ name)
  else
    .ok (instances.get ⟨k % instances.length, Nat.mod_lt _ (Nat.pos_of_ne_zero h)⟩)

/-- The in-place mutation done by `markUnhealthy` on the array: set the
status of the first instance with the given id to `'unhealthy'`. -/
def markFirst : List ServiceInstance → String → List ServiceInstance
  | [], _ => []
  | i :: rest, instId =>
      if i.id = instId then { i with status := "unhealthy" } :: rest
      else i :: markFirst rest instId

/-- `markUnhealthy(serviceName, instanceId)`: when the key is present,
mutate the first instance with that id (modelled by rebuilding the stored
list); otherwise do nothing. -/
def markUnhealthy (sr : Registry) (name instId : String) : Registry :=
  match mapGet sr name with
  | none => sr
  | some l => mapSet sr name (markFirst l instId)

end Micropay

namespace Micropay

/-- Looking up the key just set yields the new value. -/
theorem mapGet_mapSet_self (sr : Registry) (name : String)
    (v : List ServiceInstance) : mapGet (mapSet sr name v) name = some v := by
  induction sr with
  | nil => simp [mapSet, mapGet]
  | cons hd rest ih =>
    obtain ⟨k, w⟩ := hd
    by_cases hk : k = name
    · simp [mapSet, hk, mapGet]
    · simp [mapSet, hk, mapGet, ih]

/-- Setting one key leaves every other key's binding unchanged. -/
theorem mapGet_mapSet_ne (sr : Registry) (name n : String)
    (v : List ServiceInstance) (hne : n ≠ name) :
    mapGet (mapSet sr name v) n = mapGet sr n := by
  induction sr with
  | nil => simp [mapSet, mapGet, hne.symm]
  | cons hd rest ih =>
    obtain ⟨k, w⟩ := hd
    by_cases hk : k = name
    · simp [mapSet, mapGet, hk, hne.symm]
    · simp [mapSet, mapGet, hk, ih]

/-- Re-setting a key to the value it already holds is the identity. -/
theorem mapSet_self (sr : Registry) (name : String) (l : List ServiceInstance)
    (h : mapGet sr name = some l) : mapSet sr name l = sr := by
  induction sr with
  | nil => simp [mapGet] at h
  | cons hd rest ih =>
    obtain ⟨k, w⟩ := hd
    by_cases hk : k = name
    · subst hk
      simp [mapGet] at h
      simp [mapSet, h]
    · simp [mapGet, hk] at h
      simp [mapSet, hk, ih h]

end Micropay

namespace Micropay

/-- **C7.** `discover` returns exactly the healthy subsequence of the stored
list, in stored order; it is empty when the name is unknown; every returned
instance is a stored instance with status `'healthy'`, never `'unhealthy'`.
(The embedding is a total function: `discover` cannot raise.) -/
theorem discover_returns_healthy_subsequence (sr : Registry) (name : String) :
    discover sr name =
      (stored sr name).filter (fun i => i.status == "healthy") ∧
    (discover sr name).Sublist (stored sr name) ∧
    (mapGet sr name = none → discover sr name = []) ∧
    (∀ i ∈ discover sr name, i ∈ stored sr name ∧ i.status = "healthy") ∧
    (∀ i ∈ discover sr name, i.status ≠ "unhealthy") := by
  refine ⟨rfl, List.filter_sublist _, ?_, ?_, ?_⟩
  · intro h
    simp [discover, stored, h]
  · intro i hi
    rw [discover, List.mem_filter] at hi
    exact ⟨hi.1, by simpa using hi.2⟩
  · intro i hi
    rw [discover, List.mem_filter] at hi
    have : i.status = "healthy" := by simpa using hi.2
    rw [this]
    decide

/-- Witness for C7 on a registry holding one healthy and one unhealthy
instance. -/
theorem discover_returns_healthy_subsequence_witness :
    discover
        [("users",
          [{ id := "users-1", url := "http://localhost:3001", version := "1.0.0",
             status := "healthy", registeredAt := 0 },
           { id := "users-2", url := "http://localhost:3005", version := "1.0.0",
             status := "unhealthy", registeredAt := 1 }])] "users" =
      (stored
        [("users",
          [{ id := "users-1", url := "http://localhost:3001", version := "1.0.0",
             status := "healthy", registeredAt := 0 },
           { id := "users-2", url := "http://localhost:3005", version := "1.0.0",
             status := "unhealthy", registeredAt := 1 }])] "users").filter
        (fun i => i.status == "healthy") ∧
    (discover
        [("users",
          [{ id := "users-1", url := "http://localhost:3001", version := "1.0.0",
             status := "healthy", registeredAt := 0 },
           { id := "users-2", url := "http://localhost:3005", version := "1.0.0",
             status := "unhealthy", registeredAt := 1 }])] "users").Sublist
      (stored
        [("users",
          [{ id := "users-1", url := "http://localhost:3001", version := "1.0.0",
             status := "healthy", registeredAt := 0 },
           { id := "users-2", url := "http://localhost:3005", version := "1.0.0",
             status := "unhealthy", registeredAt := 1 }])] "users") ∧
    (mapGet
        [("users",
          [{ id := "users-1", url := "http://localhost:3001", version := "1.0.0",
             status := "healthy", registeredAt := 0 },
           { id := "users-2", url := "http://localhost:3005", version := "1.0.0",
             status := "unhealthy", registeredAt := 1 }])] "users" = none →
      discover
        [("users",
          [{ id := "users-1", url := "http://localhost:3001", version := "1.0.0",
             status := "healthy", registeredAt := 0 },
           { id := "users-2", url := "http://localhost:3005", version := "1.0.0",
             status := "unhealthy", registeredAt := 1 }])] "users" = []) ∧
    (∀ i ∈ discover
        [("users",
          [{ id := "users-1", url := "http://localhost:3001", version := "1.0.0",
             status := "healthy", registeredAt := 0 },
           { id := "users-2", url := "http://localhost:3005", version := "1.0.0",
             status := "unhealthy", registeredAt := 1 }])] "users",
      i ∈ stored
        [("users",
          [{ id := "users-1", url := "http://localhost:3001", version := "1.0.0",
             status := "healthy", registeredAt := 0 },
           { id := "users-2", url := "http://localhost:3005", version := "1.0.0",
             status := "unhealthy", registeredAt := 1 }])] "users" ∧
      i.status = "healthy") ∧
    (∀ i ∈ discover
        [("users",
          [{ id := "users-1", url := "http://localhost:3001", version := "1.0.0",
             status := "healthy", registeredAt := 0 },
           { id := "users-2", url := "http://localhost:3005", version := "1.0.0",
             status := "unhealthy", registeredAt := 1 }])] "users",
      i.status ≠ "unhealthy") :=
  discover_returns_healthy_subsequence _ "users"

end Micropay

namespace Micropay

/-- **C6.** `getHealthyInstance(name)` raises exactly the error
`'No healthy instances found for service: <name>'` if and only if
`discover(name)` is empty; otherwise it returns a member of
`discover(name)`, whatever the random draw. -/
theorem getHealthyInstance_err_iff_empty (sr : Registry) (name : String)
    (k : Nat) :
    (getHealthyInstance sr name k =
        Except.error ("No healthy instances found for service: " ++ name) ↔
      discover sr name = []) ∧
    (discover sr name ≠ [] →
      ∃ inst, getHealthyInstance sr name k = Except.ok inst ∧
        inst ∈ discover sr name) := by
  by_cases h : (discover sr name).length = 0
  · have hnil : discover sr name = [] := List.length_eq_zero.mp h
    refine ⟨⟨fun _ => hnil, fun _ => ?_⟩, fun hne => absurd hnil hne⟩
    simp [getHealthyInstance, h]
  · have hne : discover sr name ≠ [] := by
      intro hnil
      exact h (hnil ▸ rfl)
    constructor
    · constructor
      · intro heq
        simp [getHealthyInstance, h] at heq
      · intro hnil
        exact absurd hnil hne
    · intro _
      refine ⟨(discover sr name).get
        ⟨k % (discover sr name).length, Nat.mod_lt _ (Nat.pos_of_ne_zero h)⟩,
        ?_, List.get_mem _ _ _⟩
      simp [getHealthyInstance, h]

/-- Witness for C6 on a one-instance registry and on the empty registry. -/
theorem getHealthyInstance_err_iff_empty_witness :
    ((getHealthyInstance [] "ghost" 0 =
        Except.error ("No healthy instances found for service: " ++ "ghost") ↔
      discover [] "ghost" = []) ∧
    (discover [] "ghost" ≠ [] →
      ∃ inst, getHealthyInstance [] "ghost" 0 = Except.ok inst ∧
        inst ∈ discover [] "ghost")) ∧
    (discover
        [("users",
          [{ id := "users-1", url := "http://localhost:3001", version := "1.0.0",
             status := "healthy", registeredAt := 0 }])] "users" ≠ [] →
      ∃ inst,
        getHealthyInstance
            [("users",
              [{ id := "users-1", url := "http://localhost:3001",
                 version := "1.0.0", status := "healthy",
                 registeredAt := 0 }])] "users" 3 = Except.ok inst ∧
        inst ∈ discover
          [("users",
            [{ id := "users-1", url := "http://localhost:3001",
               version := "1.0.0", status := "healthy",
               registeredAt := 0 }])] "users") :=
  ⟨getHealthyInstance_err_iff_empty [] "ghost" 0,
    (getHealthyInstance_err_iff_empty _ "users" 3).2⟩

/-- **C9.** `register` appends a copy of the instance with
`status = 'healthy'` and `registeredAt = now` to the service's list
(creating the list when absent), leaves every previously stored entry and
every other service untouched, and always grows the list by exactly one —
no id-uniqueness check restrains it. -/
theorem register_appends (sr : Registry) (name : String)
    (inst : ServiceInstance) (now : Nat) :
    mapGet (register sr name inst now) name =
      some (stored sr name ++
        [{ inst with status := "healthy", registeredAt := now }]) ∧
    (∀ n, n ≠ name → mapGet (register sr name inst now) n = mapGet sr n) ∧
    (stored (register sr name inst now) name).length =
      (stored sr name).length + 1 ∧
    ({ inst with status := "healthy", registeredAt := now }).status =
      "healthy" ∧
    ({ inst with status := "healthy", registeredAt := now }).registeredAt =
      now := by
  refine ⟨mapGet_mapSet_self sr name _,
    fun n hn => mapGet_mapSet_ne sr name n _ hn, ?_, rfl, rfl⟩
  simp [stored, register, mapGet_mapSet_self]

/-- Witness for C9: re-registering an already-present id still appends. -/
theorem register_appends_witness :
    mapGet
        (register
          [("users",
            [{ id := "users-1", url := "http://localhost:3001",
               version := "1.0.0", status := "healthy", registeredAt := 0 }])]
          "users"
          { id := "users-1", url := "http://localhost:3009",
            version := "2.0.0", status := "whatever", registeredAt := 99 } 7)
        "users" =
      some
        (stored
          [("users",
            [{ id := "users-1", url := "http://localhost:3001",
               version := "1.0.0", status := "healthy", registeredAt := 0 }])]
          "users" ++
        [{ id := "users-1", url := "http://localhost:3009", version := "2.0.0",
           status := "healthy", registeredAt := 7 }]) ∧
    (∀ n, n ≠ "users" →
      mapGet
          (register
            [("users",
              [{ id := "users-1", url := "http://localhost:3001",
                 version := "1.0.0", status := "healthy", registeredAt := 0 }])]
            "users"
            { id := "users-1", url := "http://localhost:3009",
              version := "2.0.0", status := "whatever", registeredAt := 99 } 7)
          n =
        mapGet
          [("users",
            [{ id := "users-1", url := "http://localhost:3001",
               version := "1.0.0", status := "healthy", registeredAt := 0 }])]
          n) ∧
    (stored
        (register
          [("users",
            [{ id := "users-1", url := "http://localhost:3001",
               version := "1.0.0", status := "healthy", registeredAt := 0 }])]
          "users"
          { id := "users-1", url := "http://localhost:3009",
            version := "2.0.0", status := "whatever", registeredAt := 99 } 7)
        "users").length =
      (stored
        [("users",
          [{ id := "users-1", url := "http://localhost:3001",
             version := "1.0.0", status := "healthy", registeredAt := 0 }])]
        "users").length + 1 ∧
    ({ ({ id := "users-1", url := "http://localhost:3009", version := "2.0.0",
          status := "whatever", registeredAt := 99 } : ServiceInstance) with
        status := "healthy", registeredAt := 7 }).status = "healthy" ∧
    ({ ({ id := "users-1", url := "http://localhost:3009", version := "2.0.0",
          status := "whatever", registeredAt := 99 } : ServiceInstance) with
        status := "healthy", registeredAt := 7 }).registeredAt = 7 :=
  register_appends _ "users" _ 7

end Micropay

namespace Micropay

/-- When no stored id matches, `markFirst` changes nothing. -/
theorem markFirst_no_match (instId : String) :
    ∀ l : List ServiceInstance,
      (∀ i ∈ l, i.id ≠ instId) → markFirst l instId = l := by
  intro l
  induction l with
  | nil => intro _; rfl
  | cons i rest ih =>
    intro h
    have hi : i.id ≠ instId := h i (List.mem_cons_self i rest)
    simp [markFirst, hi, ih (fun j hj => h j (List.mem_cons_of_mem i hj))]

/-- `markFirst` rewrites exactly the first matching instance's status and
keeps everything else, positions included. -/
theorem markFirst_split (instId : String) (tgt : ServiceInstance)
    (post : List ServiceInstance) (htgt : tgt.id = instId) :
    ∀ pre : List ServiceInstance,
      (∀ i ∈ pre, i.id ≠ instId) →
      markFirst (pre ++ tgt :: post) instId =
        pre ++ { tgt with status := "unhealthy" } :: post := by
  intro pre
  induction pre with
  | nil => intro _; simp [markFirst, htgt]
  | cons i rest ih =>
    intro hpre
    have hi : i.id ≠ instId := hpre i (List.mem_cons_self i rest)
    simp [markFirst, hi, ih (fun j hj => hpre j (List.mem_cons_of_mem i hj))]

/-- Filtering the healthy instances after `markFirst`, when ids are unique
and the target was healthy, removes exactly the marked instance. -/
theorem markFirst_filter (instId : String) (tgt : ServiceInstance)
    (hid : tgt.id = instId) (hh : tgt.status = "healthy") :
    ∀ l : List ServiceInstance,
      (l.map (fun i => i.id)).Nodup → tgt ∈ l →
      (markFirst l instId).filter (fun i => i.status == "healthy") =
        (l.filter (fun i => i.status == "healthy")).filter
          (fun i => !(i.id == instId)) := by
  intro l
  induction l with
  | nil => intro _ htgt; cases htgt
  | cons i rest ih =>
    intro hnodup htgt
    rw [List.map_cons, List.nodup_cons] at hnodup
    obtain ⟨hnotin, hnd⟩ := hnodup
    by_cases hcase : i.id = instId
    · have htgti : tgt = i := by
        rcases List.mem_cons.mp htgt with h | h
        · exact h
        · exact absurd (List.mem_map.mpr ⟨tgt, h, by rw [hid, hcase]⟩) hnotin
      subst htgti
      have hrest : ∀ j ∈ rest.filter (fun i => i.status == "healthy"),
          (!(j.id == instId)) = true := by
        intro j hj
        have hjmem := (List.mem_filter.mp hj).1
        have hne : j.id ≠ instId := by
          intro he
          exact hnotin (List.mem_map.mpr ⟨j, hjmem, by rw [he, ← hcase]⟩)
        simp [hne]
      rw [markFirst, if_pos hcase]
      rw [List.filter_cons_of_neg (by simp)]
      rw [List.filter_cons_of_pos (by simp [hh])]
      rw [List.filter_cons_of_neg (by simp [hcase])]
      exact (List.filter_eq_self.mpr hrest).symm
    · have htgtrest : tgt ∈ rest := by
        rcases List.mem_cons.mp htgt with h | h
        · exact absurd (h ▸ hid) hcase
        · exact h
      have ihh := ih hnd htgtrest
      have hpi : (!(i.id == instId)) = true := by simp [hcase]
      by_cases hih : (i.status == "healthy") = true
      · simp [markFirst, hcase, List.filter_cons, hih, hpi, ihh]
      · simp [markFirst, hcase, List.filter_cons, hih, ihh]

end Micropay

namespace Micropay

/-- **C8.** `markUnhealthy(serviceName, instanceId)` flips the status of the
first stored instance with that id to `'unhealthy'` and changes nothing
else; it is a no-op when the service or the id is unknown; and when ids are
unique and the target was healthy, a subsequent `discover` returns the
previous result minus exactly the marked instance. -/
theorem markUnhealthy_marks_first_match (sr : Registry) (name instId : String) :
    (mapGet sr name = none → markUnhealthy sr name instId = sr) ∧
    ((∀ i ∈ stored sr name, i.id ≠ instId) →
      markUnhealthy sr name instId = sr) ∧
    (∀ n, n ≠ name →
      mapGet (markUnhealthy sr name instId) n = mapGet sr n) ∧
    (∀ pre tgt post, stored sr name = pre ++ tgt :: post →
      (∀ i ∈ pre, i.id ≠ instId) → tgt.id = instId →
      mapGet (markUnhealthy sr name instId) name =
        some (pre ++ { tgt with status := "unhealthy" } :: post)) ∧
    (((stored sr name).map (fun i => i.id)).Nodup →
      ∀ tgt ∈ stored sr name, tgt.id = instId → tgt.status = "healthy" →
        discover (markUnhealthy sr name instId) name =
          (discover sr name).filter (fun i => !(i.id == instId))) := by
  rcases hm : mapGet sr name with _ | l
  · have hmu : markUnhealthy sr name instId = sr := by
      simp [markUnhealthy, hm]
    have hst : stored sr name = [] := by simp [stored, hm]
    refine ⟨fun _ => hmu, fun _ => hmu, fun n _ => by rw [hmu], ?_, ?_⟩
    · intro pre tgt post hsp _ _
      rw [hst] at hsp
      simp at hsp
    · intro _ tgt htgt _ _
      rw [hst] at htgt
      cases htgt
  · have hst : stored sr name = l := by simp [stored, hm]
    have hmu : markUnhealthy sr name instId =
        mapSet sr name (markFirst l instId) := by
      simp [markUnhealthy, hm]
    refine ⟨?_, ?_, ?_, ?_, ?_⟩
    · intro h
      exact Option.noConfusion h
    · intro h
      rw [hst] at h
      rw [hmu, markFirst_no_match instId l h]
      exact mapSet_self sr name l hm
    · intro n hn
      rw [hmu]
      exact mapGet_mapSet_ne sr name n _ hn
    · intro pre tgt post hsp hpre htgt
      rw [hst] at hsp
      rw [hmu, hsp, markFirst_split instId tgt post htgt pre hpre]
      exact mapGet_mapSet_self sr name _
    · intro hnodup tgt htgt hid hh
      rw [hst] at hnodup htgt
      simp only [discover, stored, hmu, mapGet_mapSet_self, Option.getD_some, hm]
      exact markFirst_filter instId tgt hid hh l hnodup htgt

/-- A concrete two-instance registry used to witness C8. -/
def regW : Registry :=
  [("payments",
    [{ id := "payments-1", url := "http://localhost:3002", version := "1.0.0",
       status := "healthy", registeredAt := 0 },
     { id := "payments-2", url := "http://localhost:3006", version := "1.0.0",
       status := "healthy", registeredAt := 1 }])]

/-- Witness for C8 on `regW`, marking `payments-1`. -/
theorem markUnhealthy_marks_first_match_witness :
    (mapGet regW "payments" = none →
      markUnhealthy regW "payments" "payments-1" = regW) ∧
    ((∀ i ∈ stored regW "payments", i.id ≠ "payments-1") →
      markUnhealthy regW "payments" "payments-1" = regW) ∧
    (∀ n, n ≠ "payments" →
      mapGet (markUnhealthy regW "payments" "payments-1") n = mapGet regW n) ∧
    (∀ pre tgt post, stored regW "payments" = pre ++ tgt :: post →
      (∀ i ∈ pre, i.id ≠ "payments-1") → tgt.id = "payments-1" →
      mapGet (markUnhealthy regW "payments" "payments-1") "payments" =
        some (pre ++ { tgt with status := "unhealthy" } :: post)) ∧
    (((stored regW "payments").map (fun i => i.id)).Nodup →
      ∀ tgt ∈ stored regW "payments", tgt.id = "payments-1" →
        tgt.status = "healthy" →
        discover (markUnhealthy regW "payments" "payments-1") "payments" =
          (discover regW "payments").filter
            (fun i => !(i.id == "payments-1"))) :=
  markUnhealthy_marks_first_match regW "payments" "payments-1"

end Micropay

namespace Micropay

/-! ## Proxy dispatcher (API gateway `proxyRequest`) -/

/-- A response body sent to the client: either data forwarded verbatim from
the remote service, or a gateway-generated error object
`{ error, message }`. -/
inductive GatewayBody where
  | forwarded (data : String)
  | gatewayError (err : String) (message : String)
deriving DecidableEq, Repr

/-- The axios request config built by `proxyRequest` (method, target url and
the hard-coded `timeout: 10000`). -/
structure AxiosConfig where
  method : String
  url : String
  timeout : Nat
deriving DecidableEq, Repr

/-- The error shapes the catch block of `proxyRequest` distinguishes:
`error.code === 'ECONNREFUSED'`, `error.code === 'ECONNABORTED'` (timeout /
abort), an error carrying a remote `error.response`, and anything else. -/
inductive AxiosError where
  | connRefused
  | aborted
  | httpResponse (status : Nat) (data : String)
  | otherFailure
deriving DecidableEq, Repr

/-- The catch block of `proxyRequest`: branch on the error shape and build
the client response. -/
def catchHandler (serviceName : String) : AxiosError → Nat × GatewayBody
  | .connRefused =>
      (503, .gatewayError "Service unavailable"
        (serviceName ++ " service is not available"))
  | .aborted =>
      (504, .gatewayError "Gateway timeout"
        (serviceName ++ " service timed out"))
  | .httpResponse s d => (s, .forwarded d)
  | .otherFailure =>
      (500, .gatewayError "Internal gateway error"
        "Error communicating with service")

/-- The full observable outcome of one `proxyRequest`: the client response,
how many outbound calls were issued, and the config of the issued call when
one was. -/
structure ProxyResult where
  status : Nat
  body : GatewayBody
  outboundCalls : Nat
  sentConfig : Option AxiosConfig
deriving DecidableEq, Repr

/-- `proxyRequest(req, res, serviceName, path)`: resolve a healthy instance,
build the config with a 10000 ms timeout, issue the call and forward the
response; the catch block maps every failure to a client response. The
`Error` thrown by `getHealthyInstance` has neither a transport `code` nor a
`response`, so the catch block's final branch handles it. The `transport`
argument models axios; `k` models the random draw of instance selection. -/
def proxyRequest (sr : Registry) (serviceName path method : String) (k : Nat)
    (transport : AxiosConfig → Except AxiosError (Nat × String)) :
    ProxyResult :=
  match getHealthyInstance sr serviceName k with
  | .error _ =>
      let sb := catchHandler serviceName .otherFailure
      { status := sb.1, body := sb.2, outboundCalls := 0, sentConfig := none }
  | .ok inst =>
      let config : AxiosConfig :=
        { method := method, url := inst.url ++ path, timeout := 10000 }
      match transport config with
      | .ok (s, d) =>
          { status := s, body := .forwarded d, outboundCalls := 1,
            sentConfig := some config }
      | .error e =>
          let sb := catchHandler serviceName e
          { status := sb.1, body := sb.2, outboundCalls := 1,
            sentConfig := some config }

end Micropay

namespace Micropay

/-- The claim that resolution failure yields the 503 'Service unavailable'
outcome is false at the empty registry: the thrown resolution error reaches
the catch block's final branch, which answers 500 'Internal gateway
error'. -/
theorem proxy_resolution_failure_counterexample :
    (proxyRequest [] "ghost" "" "GET" 0
        (fun _ => Except.error .otherFailure)).status = 500 ∧
    (proxyRequest [] "ghost" "" "GET" 0
        (fun _ => Except.error .otherFailure)).status ≠ 503 ∧
    (proxyRequest [] "ghost" "" "GET" 0
        (fun _ => Except.error .otherFailure)).body =
      .gatewayError "Internal gateway error"
        "Error communicating with service" ∧
    (proxyRequest [] "ghost" "" "GET" 0
        (fun _ => Except.error .otherFailure)).outboundCalls = 0 := by
  refine ⟨rfl, by decide, rfl, rfl⟩

/-- **C4 (amended).** When no healthy instance exists for the service name,
`proxyRequest` immediately produces the 500 'Internal gateway error'
outcome and issues no outbound call. -/
theorem proxy_resolution_failure (sr : Registry)
    (serviceName path method : String) (k : Nat)
    (transport : AxiosConfig → Except AxiosError (Nat × String))
    (h : discover sr serviceName = []) :
    proxyRequest sr serviceName path method k transport =
      { status := 500,
        body := .gatewayError "Internal gateway error"
          "Error communicating with service",
        outboundCalls := 0, sentConfig := none } := by
  have hlen : (discover sr serviceName).length = 0 := by rw [h]; rfl
  simp [proxyRequest, getHealthyInstance, hlen, catchHandler]

/-- Witness for C4 (amended) at the empty registry. -/
theorem proxy_resolution_failure_witness :
    discover [] "ghost" = [] ∧
    proxyRequest [] "ghost" "" "GET" 0 (fun _ => Except.error .otherFailure) =
      { status := 500,
        body := .gatewayError "Internal gateway error"
          "Error communicating with service",
        outboundCalls := 0, sentConfig := none } :=
  ⟨rfl, proxy_resolution_failure [] "ghost" "" "GET" 0
    (fun _ => Except.error .otherFailure) rfl⟩

end Micropay

namespace Micropay

/-- **C5.** When an outbound call is issued, its config carries the 10000 ms
timeout; connection-refused yields 503 'Service unavailable', timeout/abort
yields 504 'Gateway timeout', a remote response (the success path or an
error carrying `error.response`) is forwarded with its status and body
verbatim, and any other failure yields 500 'Internal gateway error' — one
well-formed response in every case. -/
theorem proxy_transport_outcomes (sr : Registry)
    (serviceName path method : String) (k : Nat)
    (transport : AxiosConfig → Except AxiosError (Nat × String))
    (h : discover sr serviceName ≠ []) :
    ∃ config : AxiosConfig,
      (proxyRequest sr serviceName path method k transport).sentConfig =
        some config ∧
      config.timeout = 10000 ∧
      (proxyRequest sr serviceName path method k transport).outboundCalls =
        1 ∧
      (∀ s d, transport config = Except.ok (s, d) →
        proxyRequest sr serviceName path method k transport =
          { status := s, body := .forwarded d, outboundCalls := 1,
            sentConfig := some config }) ∧
      (transport config = Except.error .connRefused →
        proxyRequest sr serviceName path method k transport =
          { status := 503,
            body := .gatewayError "Service unavailable"
              (serviceName ++ " service is not available"),
            outboundCalls := 1, sentConfig := some config }) ∧
      (transport config = Except.error .aborted →
        proxyRequest sr serviceName path method k transport =
          { status := 504,
            body := .gatewayError "Gateway timeout"
              (serviceName ++ " service timed out"),
            outboundCalls := 1, sentConfig := some config }) ∧
      (∀ s d, transport config = Except.error (.httpResponse s d) →
        proxyRequest sr serviceName path method k transport =
          { status := s, body := .forwarded d, outboundCalls := 1,
            sentConfig := some config }) ∧
      (transport config = Except.error .otherFailure →
        proxyRequest sr serviceName path method k transport =
          { status := 500,
            body := .gatewayError "Internal gateway error"
              "Error communicating with service",
            outboundCalls := 1, sentConfig := some config }) := by
  have hlen : ¬ (discover sr serviceName).length = 0 := by
    intro h0
    exact h (List.length_eq_zero.mp h0)
  have hok : getHealthyInstance sr serviceName k =
      Except.ok ((discover sr serviceName).get
        ⟨k % (discover sr serviceName).length,
          Nat.mod_lt _ (Nat.pos_of_ne_zero hlen)⟩) := by
    simp [getHealthyInstance, hlen]
  refine ⟨{ method := method,
            url := ((discover sr serviceName).get
              ⟨k % (discover sr serviceName).length,
                Nat.mod_lt _ (Nat.pos_of_ne_zero hlen)⟩).url ++ path,
            timeout := 10000 }, ?_, rfl, ?_, ?_, ?_, ?_, ?_, ?_⟩
  · simp only [proxyRequest, hok]
    rcases transport _ with ⟨s, d⟩ | e <;> rfl
  · simp only [proxyRequest, hok]
    rcases transport _ with ⟨s, d⟩ | e <;> rfl
  · intro s d heq
    simp only [proxyRequest, hok, heq]
  · intro heq
    simp only [proxyRequest, hok, heq]
    rfl
  · intro heq
    simp only [proxyRequest, hok, heq]
    rfl
  · intro s d heq
    simp only [proxyRequest, hok, heq]
    rfl
  · intro heq
    simp only [proxyRequest, hok, heq]
    rfl

/-- Witness for C5 on a one-instance registry with a connection-refused
transport. -/
theorem proxy_transport_outcomes_witness :
    discover regW "payments" ≠ [] ∧
    ∃ config : AxiosConfig,
      (proxyRequest regW "payments" "/payments" "POST" 0
          (fun _ => Except.error .connRefused)).sentConfig = some config ∧
      config.timeout = 10000 ∧
      (proxyRequest regW "payments" "/payments" "POST" 0
          (fun _ => Except.error .connRefused)).outboundCalls = 1 ∧
      (∀ s d, (Except.error AxiosError.connRefused :
            Except AxiosError (Nat × String)) = Except.ok (s, d) →
        proxyRequest regW "payments" "/payments" "POST" 0
            (fun _ => Except.error .connRefused) =
          { status := s, body := .forwarded d, outboundCalls := 1,
            sentConfig := some config }) ∧
      ((Except.error AxiosError.connRefused :
            Except AxiosError (Nat × String)) =
          Except.error .connRefused →
        proxyRequest regW "payments" "/payments" "POST" 0
            (fun _ => Except.error .connRefused) =
          { status := 503,
            body := .gatewayError "Service unavailable"
              ("payments" ++ " service is not available"),
            outboundCalls := 1, sentConfig := some config }) := by
  refine ⟨by decide, ?_⟩
  obtain ⟨config, h1, h2, h3, h4, h5, -⟩ :=
    proxy_transport_outcomes regW "payments" "/payments" "POST" 0
      (fun _ => Except.error .connRefused) (by decide)
  exact ⟨config, h1, h2, h3, h4, h5⟩

end Micropay
